import Mathlib

/-!
Shallow embedding of the real-time messaging core of the `social-app`
messaging microservice, and proofs about its claimed properties.

The embedding covers:
* `ConnectionManager` from `app/websockets/manager.py`
  (`connect`, `disconnect`, `broadcast_user_status`, `send_personal_message`,
   `is_user_online`), modelled as pure functions over an association-list
  registry that mirrors the Python `Dict[int, List[WebSocket]]`
  (insertion order of keys and list order of handles preserved);
* the delivery part of the `send_message` endpoint from
  `app/routers/messages.py` (creation status, live push, status update);
* `get_or_create_conversation` and `create_message` from
  `app/services/message_service.py`.

What the network does when a frame is pushed is outside the program; it is
modelled by a parameter `fails : Handle → Bool` saying which handles' sends
raise. The Python code catches these exceptions; the model records each
attempt together with its success flag.
-/

namespace SocialApp

/-- Opaque identifier for one live WebSocket connection. -/
abbrev Handle := Nat

/-- User identifier (integer in the source). -/
abbrev UserId := Nat

/-- The registry state: the Python `Dict[int, List[WebSocket]]`
`active_connections`, as an insertion-ordered association list.
A Python dict has unique keys; states produced by the operations keep keys
unique (`UKeys` below). -/
abbrev Registry := List (UserId × List Handle)

/-- First entry for key `u`, like a Python dict lookup. -/
def lookupUser : Registry → UserId → Option (List Handle)
  | [], _ => none
  | (v, hs) :: rest, u => if v = u then some hs else lookupUser rest u

/-- Python `user_id in self.active_connections`. -/
def containsUser (r : Registry) (u : UserId) : Bool :=
  (lookupUser r u).isSome

/-- The handle list of `u`, `[]` when `u` has no entry. -/
def handlesOf (r : Registry) (u : UserId) : List Handle :=
  (lookupUser r u).getD []

/-- Dict assignment `d[u] = hs`: replaces the first entry with key `u`,
or appends a new entry at the end (Python dicts append new keys). -/
def setUser : Registry → UserId → List Handle → Registry
  | [], u, hs => [(u, hs)]
  | (v, hs0) :: rest, u, hs =>
      if v = u then (v, hs) :: rest else (v, hs0) :: setUser rest u hs

/-- Dict deletion `del d[u]`: removes the first entry with key `u`. -/
def delUser : Registry → UserId → Registry
  | [], _ => []
  | (v, hs) :: rest, u => if v = u then rest else (v, hs) :: delUser rest u

/-- Python `list.remove(w)`: removes the first occurrence of `w`. -/
def removeFirst : List Handle → Handle → List Handle
  | [], _ => []
  | h :: rest, w => if h = w then rest else h :: removeFirst rest w

/-- Python `is_user_online`: `user_id in active_connections and
len(active_connections[user_id]) > 0`. -/
def isUserOnline (r : Registry) (u : UserId) : Bool :=
  containsUser r u && decide ((handlesOf r u).length > 0)

/-- One attempted `send_text` during a status broadcast: the user and handle
it targeted and whether the send succeeded (`ok = false` means the send
raised and was caught). -/
structure Attempt where
  targetUser : UserId
  targetHandle : Handle
  ok : Bool
deriving Repr, DecidableEq

/-- The `(user, handle)` pairs a broadcast loops over: every connection of
every registered user, in registry order. -/
def broadcastTargets : Registry → List (UserId × Handle)
  | [] => []
  | (v, hs) :: rest => hs.map (fun h => (v, h)) ++ broadcastTargets rest

/-- One `user_status` broadcast: the payload fields (`user_id`, `status`)
and the sequence of per-handle send attempts. `broadcast_user_status`
mutates nothing: it only sends, catching per-handle errors. -/
structure StatusEvent where
  userId : UserId
  status : String
  attempts : List Attempt
deriving Repr, DecidableEq

/-- Python `ConnectionManager.broadcast_user_status`: builds the
`{'type': 'user_status', 'user_id': u, 'status': s}` payload and tries to
send it to every handle of every user, catching failures per handle and
continuing; the registry is not modified and failed handles are only
logged. -/
def broadcastUserStatus (fails : Handle → Bool) (r : Registry)
    (u : UserId) (status : String) : StatusEvent :=
  { userId := u, status := status,
    attempts := (broadcastTargets r).map
      (fun t => { targetUser := t.1, targetHandle := t.2, ok := !fails t.2 }) }

/-- Python `ConnectionManager.connect`: records whether the user was
offline, ensures an entry exists, appends the websocket, and — when the
user was offline — awaits one `'online'` status broadcast over the updated
registry. Returns the new registry and the broadcasts produced. -/
def connect (fails : Handle → Bool) (r : Registry) (u : UserId)
    (w : Handle) : Registry × List StatusEvent :=
  let wasOffline :=
    match lookupUser r u with
    | none => true
    | some hs => hs.isEmpty
  let r1 :=
    match lookupUser r u with
    | none => setUser r u [w]
    | some hs => setUser r u (hs ++ [w])
  if wasOffline then (r1, [broadcastUserStatus fails r1 u "online"])
  else (r1, [])

/-- The effect of one disconnect on a handle list: the Python guard
`if websocket in active_connections[user_id]: ....remove(websocket)`. -/
def discStep (hs : List Handle) (w : Handle) : List Handle :=
  if w ∈ hs then removeFirst hs w else hs

/-- Python `ConnectionManager.disconnect`: when the user has an entry,
removes the first occurrence of the websocket if present; when the entry
becomes empty, deletes it and schedules one `'offline'` broadcast
(modelled against the post-deletion registry, which is the state the
scheduled task sees). Returns the new registry and the broadcasts. -/
def disconnect (fails : Handle → Bool) (r : Registry) (u : UserId)
    (w : Handle) : Registry × List StatusEvent :=
  match lookupUser r u with
  | none => (r, [])
  | some hs =>
    let hs1 := discStep hs w
    if hs1.isEmpty then
      let r1 := delUser r u
      (r1, [broadcastUserStatus fails r1 u "offline"])
    else (setUser r u hs1, [])

/-- Delivery status of a persisted message (`MessageStatus` in
`app/models.py`). -/
inductive MessageStatus where
  | sent
  | delivered
  | read
deriving Repr, DecidableEq

/-- A persisted message row (the fields the delivery path touches). -/
structure Message where
  id : Nat
  conversationId : Nat
  senderId : UserId
  content : String
  status : MessageStatus
deriving Repr, DecidableEq

/-- The `{'type': 'new_message', 'message': ...}` envelope pushed to a
recipient; `message` is the serialized response at dump time. -/
structure NewMessagePush where
  ptype : String
  message : Message
deriving Repr, DecidableEq

/-- One attempted `send_text` of a personal message to one handle. -/
structure Push where
  targetHandle : Handle
  payload : NewMessagePush
  ok : Bool
deriving Repr, DecidableEq

/-- The loop `for connection in disconnected: self.disconnect(user_id,
connection)` at the end of `send_personal_message`: sequential disconnects
of the failed handles, accumulating any broadcasts they produce. -/
def cleanupDisconnects (fails : Handle → Bool) (u : UserId) :
    List Handle → Registry → Registry × List StatusEvent
  | [], r => (r, [])
  | h :: rest, r =>
    let step := disconnect fails r u h
    let next := cleanupDisconnects fails u rest step.1
    (next.1, step.2 ++ next.2)

/-- Sequential application of `discStep` for a list of removed handles;
the handle-list view of `cleanupDisconnects`. -/
def applyDiscs : List Handle → List Handle → List Handle
  | hs, [] => hs
  | hs, f :: fs => applyDiscs (discStep hs f) fs

/-- Python `ConnectionManager.send_personal_message`: when the user has an
entry, sends the payload to each of the user's handles in order, collecting
the handles whose send raised, then calls `disconnect` for each failed
handle. Returns the new registry, the pushes attempted, and any status
events produced by the cleanup disconnects. -/
def sendPersonalMessage (fails : Handle → Bool) (r : Registry)
    (payload : NewMessagePush) (u : UserId) :
    Registry × List Push × List StatusEvent :=
  match lookupUser r u with
  | none => (r, [], [])
  | some hs =>
    let pushes := hs.map (fun h =>
      { targetHandle := h, payload := payload, ok := !fails h })
    let failed := hs.filter (fun h => fails h)
    let cleaned := cleanupDisconnects fails u failed r
    (cleaned.1, pushes, cleaned.2)

/-- Python `create_message` (`app/services/message_service.py`): persists a
new message with `status=MessageStatus.SENT`. -/
def createMessage (nextId : Nat) (convId : Nat) (senderId : UserId)
    (content : String) : Message :=
  { id := nextId, conversationId := convId, senderId := senderId,
    content := content, status := MessageStatus.sent }

/-- One observable step of the delivery path, in program order. -/
inductive Effect where
  | push (h : Handle) (p : NewMessagePush) (ok : Bool)
  | setStatus (messageId : Nat) (st : MessageStatus)
deriving Repr, DecidableEq

/-- Result of routing one message: the registry after cleanup, the pushes
attempted, the stored status of the message after the route, and the
ordered trace of sends and status updates. -/
structure RouteResult where
  reg : Registry
  pushes : List Push
  stored : MessageStatus
  trace : List Effect
deriving Repr, DecidableEq

/-- The delivery part of the `send_message` endpoint
(`app/routers/messages.py`, lines 211–224): if `is_user_online(receiver)`,
build the `new_message` envelope from the just-created message, call
`send_personal_message`, and then unconditionally update the stored status
to `DELIVERED`; otherwise do nothing further, leaving the stored status as
created. -/
def routeMessage (fails : Handle → Bool) (r : Registry) (msg : Message)
    (receiverId : UserId) : RouteResult :=
  if isUserOnline r receiverId then
    let payload : NewMessagePush := { ptype := "new_message", message := msg }
    let result := sendPersonalMessage fails r payload receiverId
    { reg := result.1,
      pushes := result.2.1,
      stored := MessageStatus.delivered,
      trace := result.2.1.map (fun p => Effect.push p.targetHandle p.payload p.ok)
        ++ [Effect.setStatus msg.id MessageStatus.delivered] }
  else
    { reg := r, pushes := [], stored := msg.status, trace := [] }

/-- A stored conversation row (the fields `get_or_create_conversation`
touches). -/
structure Conversation where
  id : Nat
  participant1 : UserId
  participant2 : UserId
deriving Repr, DecidableEq

/-- The conversation table plus the next autoincrement id. -/
structure ConvDb where
  convs : List Conversation
  nextId : Nat
deriving Repr, DecidableEq

/-- Python `get_or_create_conversation`: normalizes the participants with
the smaller id first, returns the matching conversation if one exists, and
otherwise inserts a fresh one. Returns the conversation and the updated
table. -/
def getOrCreateConversation (db : ConvDb) (user1 user2 : UserId) :
    Conversation × ConvDb :=
  let p1 := min user1 user2
  let p2 := max user1 user2
  match db.convs.find? (fun c => c.participant1 = p1 && c.participant2 = p2) with
  | some c => (c, db)
  | none =>
    let c : Conversation := { id := db.nextId, participant1 := p1, participant2 := p2 }
    (c, { convs := db.convs ++ [c], nextId := db.nextId + 1 })

/-- No registry entry maps a user to an empty handle list (the spec's
presence-entry invariant). -/
def NoEmpty (r : Registry) : Prop := ∀ p ∈ r, p.2 ≠ ([] : List Handle)

/-- Registry keys are pairwise distinct, as in a Python dict. -/
def UKeys (r : Registry) : Prop := (r.map Prod.fst).Nodup

instance : DecidablePred NoEmpty := fun r =>
  inferInstanceAs (Decidable (∀ p ∈ r, p.2 ≠ ([] : List Handle)))

instance : DecidablePred UKeys := fun r =>
  inferInstanceAs (Decidable ((r.map Prod.fst).Nodup))

/-! ### Basic lemmas about the registry operations -/

theorem lookupUser_setUser_self (r : Registry) (u : UserId) (hs : List Handle) :
    lookupUser (setUser r u hs) u = some hs := by
  induction r with
  | nil => simp [setUser, lookupUser]
  | cons p rest ih =>
    obtain ⟨v, hs0⟩ := p
    by_cases hvu : v = u
    · simp [setUser, lookupUser, hvu]
    · simp [setUser, lookupUser, hvu, ih]

theorem lookupUser_setUser_ne (r : Registry) (u v : UserId) (hs : List Handle)
    (hvu : v ≠ u) : lookupUser (setUser r u hs) v = lookupUser r v := by
  induction r with
  | nil => simp [setUser, lookupUser, Ne.symm hvu]
  | cons p rest ih =>
    obtain ⟨w, hs0⟩ := p
    by_cases hwu : w = u
    · subst hwu
      simp [setUser, lookupUser, Ne.symm hvu]
    · by_cases hwv : w = v
      · subst hwv
        simp [setUser, lookupUser, hwu, hvu]
      · simp [setUser, lookupUser, hwu, hwv, ih]

theorem lookupUser_delUser_ne (r : Registry) (u v : UserId)
    (hvu : v ≠ u) : lookupUser (delUser r u) v = lookupUser r v := by
  induction r with
  | nil => simp [delUser]
  | cons p rest ih =>
    obtain ⟨w, hs0⟩ := p
    by_cases hwu : w = u
    · subst hwu
      simp [delUser, lookupUser, Ne.symm hvu]
    · by_cases hwv : w = v
      · subst hwv
        simp [delUser, lookupUser, hwu, hvu]
      · simp [delUser, lookupUser, hwu, hwv, ih]

theorem lookupUser_none_of_not_mem_keys (r : Registry) (u : UserId)
    (h : u ∉ r.map Prod.fst) : lookupUser r u = none := by
  induction r with
  | nil => simp [lookupUser]
  | cons p rest ih =>
    obtain ⟨v, hs⟩ := p
    simp only [List.map_cons, List.mem_cons] at h
    push_neg at h
    simp [lookupUser, Ne.symm h.1, ih h.2]

theorem lookupUser_delUser_self (r : Registry) (u : UserId) (hk : UKeys r) :
    lookupUser (delUser r u) u = none := by
  induction r with
  | nil => simp [delUser, lookupUser]
  | cons p rest ih =>
    obtain ⟨v, hs⟩ := p
    simp only [UKeys, List.map_cons, List.nodup_cons] at hk
    by_cases hvu : v = u
    · subst hvu
      simpa [delUser] using lookupUser_none_of_not_mem_keys rest v hk.1
    · simp [delUser, lookupUser, hvu, ih hk.2]

theorem keys_setUser_of_contains (r : Registry) (u : UserId) (hs : List Handle)
    (hc : containsUser r u = true) :
    (setUser r u hs).map Prod.fst = r.map Prod.fst := by
  induction r with
  | nil => simp [containsUser, lookupUser] at hc
  | cons p rest ih =>
    obtain ⟨v, hs0⟩ := p
    by_cases hvu : v = u
    · simp [setUser, hvu]
    · simp only [containsUser, lookupUser, hvu, if_false] at hc
      simp [setUser, hvu, ih hc]

theorem keys_setUser_of_not_contains (r : Registry) (u : UserId) (hs : List Handle)
    (hc : containsUser r u = false) :
    (setUser r u hs).map Prod.fst = r.map Prod.fst ++ [u] := by
  induction r with
  | nil => simp [setUser]
  | cons p rest ih =>
    obtain ⟨v, hs0⟩ := p
    by_cases hvu : v = u
    · simp [containsUser, lookupUser, hvu] at hc
    · simp only [containsUser, lookupUser, hvu, if_false] at hc
      simp [setUser, hvu, ih hc]

theorem not_mem_keys_of_not_contains (r : Registry) (u : UserId)
    (hc : containsUser r u = false) : u ∉ r.map Prod.fst := by
  induction r with
  | nil => simp
  | cons p rest ih =>
    obtain ⟨v, hs⟩ := p
    by_cases hvu : v = u
    · simp [containsUser, lookupUser, hvu] at hc
    · have hc' : containsUser rest u = false := by
        simpa [containsUser, lookupUser, hvu] using hc
      simp only [List.map_cons, List.mem_cons, not_or]
      exact ⟨fun h => hvu h.symm, ih hc'⟩

theorem ukeys_setUser (r : Registry) (u : UserId) (hs : List Handle)
    (hk : UKeys r) : UKeys (setUser r u hs) := by
  unfold UKeys
  by_cases hc : containsUser r u
  · rw [keys_setUser_of_contains r u hs hc]
    exact hk
  · have hc' : containsUser r u = false := by simpa using hc
    rw [keys_setUser_of_not_contains r u hs hc']
    refine List.Nodup.append hk (List.nodup_singleton u) ?_
    intro a ha hb
    simp only [List.mem_singleton] at hb
    exact absurd ha (hb ▸ not_mem_keys_of_not_contains r u hc')

theorem keys_delUser_sublist (r : Registry) (u : UserId) :
    (delUser r u).map Prod.fst |>.Sublist (r.map Prod.fst) := by
  induction r with
  | nil => simp [delUser]
  | cons p rest ih =>
    obtain ⟨v, hs⟩ := p
    by_cases hvu : v = u
    · simp only [delUser, hvu, if_true, List.map_cons]
      exact List.sublist_cons_self u (rest.map Prod.fst)
    · simpa [delUser, hvu] using List.Sublist.cons₂ v ih

theorem ukeys_delUser (r : Registry) (u : UserId) (hk : UKeys r) :
    UKeys (delUser r u) :=
  List.Nodup.sublist (keys_delUser_sublist r u) hk

theorem noEmpty_setUser (r : Registry) (u : UserId) (hs : List Handle)
    (hr : NoEmpty r) (hhs : hs ≠ []) : NoEmpty (setUser r u hs) := by
  induction r with
  | nil =>
    intro p hp
    simp only [setUser, List.mem_singleton] at hp
    subst hp
    exact hhs
  | cons q rest ih =>
    obtain ⟨v, hs0⟩ := q
    intro p hp
    by_cases hvu : v = u
    · simp only [setUser, hvu, if_true, List.mem_cons] at hp
      rcases hp with hp | hp
      · subst hp; exact hhs
      · exact hr p (List.mem_cons_of_mem _ hp)
    · simp only [setUser, hvu, if_false, List.mem_cons] at hp
      rcases hp with hp | hp
      · subst hp; exact hr (v, hs0) (List.mem_cons_self _ _)
      · exact ih (fun q hq => hr q (List.mem_cons_of_mem _ hq)) p hp

theorem noEmpty_delUser (r : Registry) (u : UserId) (hr : NoEmpty r) :
    NoEmpty (delUser r u) := by
  induction r with
  | nil => intro p hp; simp [delUser] at hp
  | cons q rest ih =>
    obtain ⟨v, hs⟩ := q
    intro p hp
    by_cases hvu : v = u
    · simp only [delUser, hvu, if_true] at hp
      exact hr p (List.mem_cons_of_mem _ hp)
    · simp only [delUser, hvu, if_false, List.mem_cons] at hp
      rcases hp with hp | hp
      · subst hp; exact hr (v, hs) (List.mem_cons_self _ _)
      · exact ih (fun q hq => hr q (List.mem_cons_of_mem _ hq)) p hp

theorem mem_broadcastTargets_of_lookup (r : Registry) (u : UserId)
    (hs : List Handle) (h : lookupUser r u = some hs) :
    ∀ x ∈ hs, (u, x) ∈ broadcastTargets r := by
  induction r with
  | nil => simp [lookupUser] at h
  | cons p rest ih =>
    obtain ⟨v, hs0⟩ := p
    intro x hx
    by_cases hvu : v = u
    · subst hvu
      have h' : hs0 = hs := by simpa [lookupUser] using h
      subst h'
      simp only [broadcastTargets, List.mem_append, List.mem_map]
      exact Or.inl ⟨x, hx, rfl⟩
    · have h' : lookupUser rest u = some hs := by
        simpa [lookupUser, hvu] using h
      simp only [broadcastTargets, List.mem_append]
      exact Or.inr (ih h' x hx)

/-! ### Effect of the operations on lookups and well-formedness -/

theorem lookupUser_mem (r : Registry) (v : UserId) (hs : List Handle)
    (h : lookupUser r v = some hs) : (v, hs) ∈ r := by
  induction r with
  | nil => simp [lookupUser] at h
  | cons p rest ih =>
    obtain ⟨w, hs0⟩ := p
    by_cases hwv : w = v
    · subst hwv
      have h' : hs0 = hs := by simpa [lookupUser] using h
      subst h'
      exact List.mem_cons_self _ _
    · have h' : lookupUser rest v = some hs := by simpa [lookupUser, hwv] using h
      exact List.mem_cons_of_mem _ (ih h')

theorem handlesOf_eq_iff_lookup (r : Registry) (u : UserId) (hs : List Handle)
    (hne : hs ≠ []) : handlesOf r u = hs ↔ lookupUser r u = some hs := by
  unfold handlesOf
  cases h : lookupUser r u with
  | none => simp [Ne.symm hne]
  | some l => simp

theorem isUserOnline_iff (r : Registry) (u : UserId) :
    isUserOnline r u = true ↔ handlesOf r u ≠ [] := by
  unfold isUserOnline containsUser handlesOf
  cases h : lookupUser r u with
  | none => simp
  | some l =>
    simp only [Option.isSome_some, Bool.true_and, Option.getD_some]
    constructor
    · intro hl
      have : 0 < l.length := by simpa using hl
      exact List.ne_nil_of_length_pos this
    · intro hl
      simpa using List.length_pos_of_ne_nil hl

theorem handlesOf_disconnect_self (fails : Handle → Bool) (r : Registry)
    (u : UserId) (w : Handle) (hk : UKeys r) :
    handlesOf (disconnect fails r u w).1 u = discStep (handlesOf r u) w := by
  unfold disconnect
  cases h : lookupUser r u with
  | none =>
    simp only [handlesOf, h, Option.getD_none]
    simp [discStep]
  | some hs =>
    simp only [handlesOf, h, Option.getD_some]
    by_cases he : (discStep hs w).isEmpty
    · have he' : discStep hs w = [] := by simpa using he
      simp only [he, if_true, he']
      simp [handlesOf, lookupUser_delUser_self r u hk]
    · simp only [he, if_false]
      simp [handlesOf, lookupUser_setUser_self]

theorem lookupUser_disconnect_other (fails : Handle → Bool) (r : Registry)
    (u v : UserId) (w : Handle) (hvu : v ≠ u) :
    lookupUser (disconnect fails r u w).1 v = lookupUser r v := by
  unfold disconnect
  cases h : lookupUser r u with
  | none => simp
  | some hs =>
    by_cases he : (discStep hs w).isEmpty
    · simp [he, lookupUser_delUser_ne r u v hvu]
    · simp [he, lookupUser_setUser_ne r u v _ hvu]

theorem ukeys_disconnect (fails : Handle → Bool) (r : Registry)
    (u : UserId) (w : Handle) (hk : UKeys r) :
    UKeys (disconnect fails r u w).1 := by
  unfold disconnect
  cases h : lookupUser r u with
  | none => simpa using hk
  | some hs =>
    by_cases he : (discStep hs w).isEmpty
    · simpa [he] using ukeys_delUser r u hk
    · simpa [he] using ukeys_setUser r u _ hk

theorem noEmpty_disconnect (fails : Handle → Bool) (r : Registry)
    (u : UserId) (w : Handle) (hr : NoEmpty r) :
    NoEmpty (disconnect fails r u w).1 := by
  unfold disconnect
  cases h : lookupUser r u with
  | none => simpa using hr
  | some hs =>
    by_cases he : (discStep hs w).isEmpty
    · simpa [he] using noEmpty_delUser r u hr
    · have hne : discStep hs w ≠ [] := by simpa using he
      simpa [he] using noEmpty_setUser r u _ hr hne

theorem lookupUser_connect_self (fails : Handle → Bool) (r : Registry)
    (u : UserId) (w : Handle) :
    lookupUser (connect fails r u w).1 u = some (handlesOf r u ++ [w]) := by
  unfold connect
  cases h : lookupUser r u with
  | none =>
    simp [handlesOf, h, lookupUser_setUser_self]
  | some hs =>
    by_cases he : hs.isEmpty <;>
      simp [handlesOf, h, he, lookupUser_setUser_self]

theorem lookupUser_connect_other (fails : Handle → Bool) (r : Registry)
    (u v : UserId) (w : Handle) (hvu : v ≠ u) :
    lookupUser (connect fails r u w).1 v = lookupUser r v := by
  unfold connect
  cases h : lookupUser r u with
  | none => simp [lookupUser_setUser_ne r u v _ hvu]
  | some hs =>
    by_cases he : hs.isEmpty <;>
      simp [he, lookupUser_setUser_ne r u v _ hvu]

theorem ukeys_connect (fails : Handle → Bool) (r : Registry)
    (u : UserId) (w : Handle) (hk : UKeys r) :
    UKeys (connect fails r u w).1 := by
  unfold connect
  cases h : lookupUser r u with
  | none => simpa using ukeys_setUser r u _ hk
  | some hs =>
    by_cases he : hs.isEmpty <;> simpa [he] using ukeys_setUser r u _ hk

theorem noEmpty_connect (fails : Handle → Bool) (r : Registry)
    (u : UserId) (w : Handle) (hr : NoEmpty r) :
    NoEmpty (connect fails r u w).1 := by
  unfold connect
  cases h : lookupUser r u with
  | none => simpa using noEmpty_setUser r u [w] hr (by simp)
  | some hs =>
    by_cases he : hs.isEmpty <;>
      simpa [he] using noEmpty_setUser r u (hs ++ [w]) hr (by simp)

theorem handlesOf_cleanupDisconnects_self (fails : Handle → Bool)
    (u : UserId) :
    ∀ (fs : List Handle) (r : Registry), UKeys r →
      handlesOf (cleanupDisconnects fails u fs r).1 u
        = applyDiscs (handlesOf r u) fs := by
  intro fs
  induction fs with
  | nil => intro r _; simp [cleanupDisconnects, applyDiscs]
  | cons f rest ih =>
    intro r hk
    simp only [cleanupDisconnects, applyDiscs]
    rw [ih _ (ukeys_disconnect fails r u f hk),
      handlesOf_disconnect_self fails r u f hk]

theorem ukeys_cleanupDisconnects (fails : Handle → Bool) (u : UserId) :
    ∀ (fs : List Handle) (r : Registry), UKeys r →
      UKeys (cleanupDisconnects fails u fs r).1 := by
  intro fs
  induction fs with
  | nil => intro r hk; simpa [cleanupDisconnects] using hk
  | cons f rest ih =>
    intro r hk
    simpa [cleanupDisconnects] using ih _ (ukeys_disconnect fails r u f hk)

theorem noEmpty_cleanupDisconnects (fails : Handle → Bool) (u : UserId) :
    ∀ (fs : List Handle) (r : Registry), NoEmpty r →
      NoEmpty (cleanupDisconnects fails u fs r).1 := by
  intro fs
  induction fs with
  | nil => intro r hr; simpa [cleanupDisconnects] using hr
  | cons f rest ih =>
    intro r hr
    simpa [cleanupDisconnects] using ih _ (noEmpty_disconnect fails r u f hr)

theorem discStep_cons_ne (a : Handle) (t : List Handle) (f : Handle)
    (hfa : f ≠ a) : discStep (a :: t) f = a :: discStep t f := by
  unfold discStep
  by_cases hm : f ∈ t
  · simp [List.mem_cons, hfa, hm, removeFirst, Ne.symm hfa]
  · simp [List.mem_cons, hfa, hm]

theorem applyDiscs_cons_of_ne (a : Handle) :
    ∀ (fs : List Handle) (t : List Handle), (∀ f ∈ fs, f ≠ a) →
      applyDiscs (a :: t) fs = a :: applyDiscs t fs := by
  intro fs
  induction fs with
  | nil => intro t _; simp [applyDiscs]
  | cons f rest ih =>
    intro t hne
    have hfa : f ≠ a := hne f (List.mem_cons_self _ _)
    simp only [applyDiscs, discStep_cons_ne a t f hfa]
    exact ih _ (fun g hg => hne g (List.mem_cons_of_mem _ hg))

theorem applyDiscs_filter (p : Handle → Bool) :
    ∀ hs : List Handle, applyDiscs hs (hs.filter p) = hs.filter (fun h => !p h) := by
  intro hs
  induction hs with
  | nil => simp [applyDiscs]
  | cons a t ih =>
    by_cases hpa : p a
    · have hstep : discStep (a :: t) a = t := by
        simp [discStep, removeFirst]
      simp only [List.filter_cons, hpa, if_true, applyDiscs, hstep, ih,
        Bool.not_true]
      simp [hpa]
    · have hmem : ∀ f ∈ t.filter p, f ≠ a := by
        intro f hf hfa
        subst hfa
        exact hpa (List.of_mem_filter hf)
      have hfc : (a :: t).filter p = t.filter p := by
        simp [List.filter_cons, hpa]
      rw [hfc, applyDiscs_cons_of_ne a (t.filter p) t hmem, ih]
      simp [List.filter_cons, hpa]

theorem handlesOf_sendPersonalMessage_self (fails : Handle → Bool)
    (r : Registry) (payload : NewMessagePush) (u : UserId) (hk : UKeys r) :
    handlesOf (sendPersonalMessage fails r payload u).1 u
      = (handlesOf r u).filter (fun h => !fails h) := by
  have hh : (sendPersonalMessage fails r payload u).1
      = (cleanupDisconnects fails u
          ((handlesOf r u).filter (fun h => fails h)) r).1 := by
    unfold sendPersonalMessage
    cases h : lookupUser r u with
    | none => simp [handlesOf, h, cleanupDisconnects]
    | some hs => simp [handlesOf, h]
  rw [hh, handlesOf_cleanupDisconnects_self fails u _ r hk]
  exact applyDiscs_filter fails (handlesOf r u)

/-! ### Single-user connect/disconnect sequences (claim C2) -/

/-- One registry call in a single-user trace. -/
inductive WsOp where
  | conn (h : Handle)
  | disc (h : Handle)
deriving Repr, DecidableEq

/-- Runs a sequence of `connect`/`disconnect` calls for user `u`, keeping
only the registry state. -/
def applyOps (fails : Handle → Bool) (u : UserId) :
    Registry → List WsOp → Registry
  | r, [] => r
  | r, WsOp.conn h :: rest => applyOps fails u (connect fails r u h).1 rest
  | r, WsOp.disc h :: rest => applyOps fails u (disconnect fails r u h).1 rest

/-- Modelled from the spec: the multiset of net-registered handles after a
call sequence — each registration adds the handle, each deregistration
removes one occurrence when present and is ignored otherwise, so the
length is "registrations minus deregistrations, clamped at zero, ignoring
duplicate/unknown deregistrations". -/
def netHandles (acc : List Handle) : List WsOp → List Handle
  | [] => acc
  | WsOp.conn h :: rest => netHandles (acc ++ [h]) rest
  | WsOp.disc h :: rest => netHandles (discStep acc h) rest

/-- Modelled from the spec: the net number of registered handles after a
call sequence starting from an empty registry. -/
def netCount (ops : List WsOp) : Nat := (netHandles [] ops).length

/-- The registry holding exactly the handle list `acc` for user `u`
(no entry when `acc` is empty). -/
def regOf (u : UserId) (acc : List Handle) : Registry :=
  if acc = [] then [] else [(u, acc)]

theorem connect_regOf (fails : Handle → Bool) (u : UserId)
    (acc : List Handle) (h : Handle) :
    (connect fails (regOf u acc) u h).1 = regOf u (acc ++ [h]) := by
  by_cases hacc : acc = []
  · subst hacc
    simp [regOf, connect, lookupUser, setUser]
  · simp [regOf, hacc, connect, lookupUser, setUser,
      List.isEmpty_iff.ne.mpr hacc]

theorem disconnect_regOf (fails : Handle → Bool) (u : UserId)
    (acc : List Handle) (h : Handle) :
    (disconnect fails (regOf u acc) u h).1 = regOf u (discStep acc h) := by
  by_cases hacc : acc = []
  · subst hacc
    simp [regOf, disconnect, lookupUser, discStep]
  · by_cases hd : discStep acc h = []
    · simp [regOf, hacc, disconnect, lookupUser, hd, delUser]
    · simp [regOf, hacc, disconnect, lookupUser, hd, setUser,
        List.isEmpty_iff.ne.mpr hd]

theorem applyOps_regOf (fails : Handle → Bool) (u : UserId) :
    ∀ (ops : List WsOp) (acc : List Handle),
      applyOps fails u (regOf u acc) ops = regOf u (netHandles acc ops) := by
  intro ops
  induction ops with
  | nil => intro acc; simp [applyOps, netHandles]
  | cons op rest ih =>
    intro acc
    cases op with
    | conn h =>
      simp only [applyOps, netHandles, connect_regOf]
      exact ih (acc ++ [h])
    | disc h =>
      simp only [applyOps, netHandles, disconnect_regOf]
      exact ih (discStep acc h)

theorem isUserOnline_regOf (u : UserId) (acc : List Handle) :
    isUserOnline (regOf u acc) u = !acc.isEmpty := by
  by_cases hacc : acc = []
  · subst hacc
    simp [regOf, isUserOnline, containsUser, lookupUser]
  · simp [regOf, hacc, isUserOnline, containsUser, lookupUser, handlesOf,
      List.isEmpty_iff.ne.mpr hacc, List.length_pos_of_ne_nil hacc]

/-! ### Further helper lemmas for the claims -/

theorem setUser_setUser (r : Registry) (u : UserId) (l1 l2 : List Handle) :
    setUser (setUser r u l1) u l2 = setUser r u l2 := by
  induction r with
  | nil => simp [setUser]
  | cons p rest ih =>
    obtain ⟨v, hs⟩ := p
    by_cases hvu : v = u
    · simp [setUser, hvu]
    · simp [setUser, hvu, ih]

theorem not_mem_removeFirst_of_count_le_one (w : Handle) :
    ∀ hs : List Handle, hs.count w ≤ 1 → w ∉ removeFirst hs w := by
  intro hs
  induction hs with
  | nil => intro _; simp [removeFirst]
  | cons a t ih =>
    intro hc
    by_cases haw : a = w
    · subst haw
      have h0 : t.count a = 0 := by
        simp only [List.count_cons_self] at hc
        omega
      simp only [removeFirst, if_pos rfl]
      exact List.count_eq_zero.mp h0
    · have hwa : w ≠ a := fun hh => haw hh.symm
      have hc' : t.count w ≤ 1 := by
        simpa [List.count_cons, hwa] using hc
      intro hm
      simp only [removeFirst, haw, if_false, List.mem_cons] at hm
      rcases hm with hm | hm
      · exact hwa hm
      · exact ih hc' hm

theorem not_mem_discStep_of_count_le_one (hs : List Handle) (w : Handle)
    (hc : hs.count w ≤ 1) : w ∉ discStep hs w := by
  unfold discStep
  by_cases hm : w ∈ hs
  · simpa [hm] using not_mem_removeFirst_of_count_le_one w hs hc
  · simp [hm]

theorem attempts_map_eq_targets (fails : Handle → Bool) (r : Registry)
    (u : UserId) (st : String) :
    (broadcastUserStatus fails r u st).attempts.map
      (fun a => (a.targetUser, a.targetHandle)) = broadcastTargets r := by
  unfold broadcastUserStatus
  simp only [List.map_map]
  have hcomp : ((fun a : Attempt => (a.targetUser, a.targetHandle)) ∘
      fun t : UserId × Handle =>
        ({ targetUser := t.1, targetHandle := t.2, ok := !fails t.2 } : Attempt))
      = fun t : UserId × Handle => (t.1, t.2) := rfl
  rw [hcomp]
  simp

theorem connect_events (fails : Handle → Bool) (r : Registry) (u : UserId)
    (w : Handle) :
    (connect fails r u w).2
      = if handlesOf r u = [] then
          [broadcastUserStatus fails (connect fails r u w).1 u "online"]
        else [] := by
  unfold connect
  cases h : lookupUser r u with
  | none => simp [handlesOf, h]
  | some hs =>
    by_cases he : hs = []
    · subst he
      simp [handlesOf, h]
    · simp [handlesOf, h, he, List.isEmpty_iff.ne.mpr he]

theorem disconnect_events (fails : Handle → Bool) (r : Registry) (u : UserId)
    (w : Handle) :
    (disconnect fails r u w).2
      = if containsUser r u = true ∧ discStep (handlesOf r u) w = [] then
          [broadcastUserStatus fails (delUser r u) u "offline"]
        else [] := by
  unfold disconnect
  cases h : lookupUser r u with
  | none => simp [containsUser, h]
  | some hs =>
    by_cases hd : discStep hs w = []
    · simp [containsUser, handlesOf, h, hd]
    · simp [containsUser, handlesOf, h, hd, List.isEmpty_iff.ne.mpr hd]

theorem noEmpty_sendPersonalMessage (fails : Handle → Bool) (r : Registry)
    (payload : NewMessagePush) (u : UserId) (hr : NoEmpty r) :
    NoEmpty (sendPersonalMessage fails r payload u).1 := by
  unfold sendPersonalMessage
  cases h : lookupUser r u with
  | none => simpa using hr
  | some hs => simpa using noEmpty_cleanupDisconnects fails u _ r hr

/-! ### The claims -/

/-- C2: for every finite sequence of `connect`/`disconnect` calls for a
single user on an initially empty registry, `is_user_online` afterwards is
true iff the net number of registered handles — registrations minus
deregistrations, clamped at zero, ignoring deregistrations of handles not
currently present — is positive. -/
theorem isUserOnline_iff_netCount_pos (fails : Handle → Bool) (u : UserId)
    (ops : List WsOp) :
    isUserOnline (applyOps fails u [] ops) u = true ↔ 0 < netCount ops := by
  have h0 : ([] : Registry) = regOf u [] := by simp [regOf]
  rw [h0, applyOps_regOf, isUserOnline_regOf]
  unfold netCount
  cases hn : netHandles [] ops with
  | nil => simp
  | cons a t => simp

/-- C7: routing a message to a recipient with zero registered handles
leaves the registry untouched, attempts no push, performs no status
update, and the persisted status stays `sent` (the creation status):
the queued outcome. -/
theorem routeMessage_offline_queued (fails : Handle → Bool) (r : Registry)
    (recv : UserId) (i c : Nat) (s : UserId) (txt : String)
    (h : handlesOf r recv = []) :
    (routeMessage fails r (createMessage i c s txt) recv).reg = r ∧
    (routeMessage fails r (createMessage i c s txt) recv).pushes = [] ∧
    (routeMessage fails r (createMessage i c s txt) recv).trace = [] ∧
    (routeMessage fails r (createMessage i c s txt) recv).stored
      = MessageStatus.sent := by
  have hoff : isUserOnline r recv = false := by
    rcases Bool.eq_false_or_eq_true (isUserOnline r recv) with hf | ht
    · exact absurd h ((isUserOnline_iff r recv).mp hf)
    · exact ht
  simp [routeMessage, hoff, createMessage]

/-- Witness for C7 at a concrete offline recipient. -/
theorem routeMessage_offline_queued_witness :
    (routeMessage (fun _ => false) [(7, [1])] (createMessage 1 1 7 "hi") 42).reg
      = [(7, [1])] ∧
    (routeMessage (fun _ => false) [(7, [1])] (createMessage 1 1 7 "hi") 42).pushes
      = [] ∧
    (routeMessage (fun _ => false) [(7, [1])] (createMessage 1 1 7 "hi") 42).trace
      = [] ∧
    (routeMessage (fun _ => false) [(7, [1])] (createMessage 1 1 7 "hi") 42).stored
      = MessageStatus.sent :=
  routeMessage_offline_queued (fun _ => false) [(7, [1])] 42 1 1 7 "hi" (by decide)

/-- C10: conversation lookup is symmetric in its participants — the
participants are normalized with the smaller id first, so
`get_or_create_conversation` gives the same result for `(a, b)` and
`(b, a)`. -/
theorem getOrCreateConversation_comm (db : ConvDb) (a b : UserId) :
    getOrCreateConversation db a b = getOrCreateConversation db b a := by
  unfold getOrCreateConversation
  rw [Nat.min_comm, Nat.max_comm]

/-- C3: the registry invariant — a user id is a key iff its handle
collection is non-empty — is preserved by `connect`, `disconnect` and
`send_personal_message`: none of them leaves an entry mapped to an empty
collection. -/
theorem registry_invariant_preserved (fails : Handle → Bool) (r : Registry)
    (u : UserId) (w : Handle) (payload : NewMessagePush) (hr : NoEmpty r) :
    (∀ v, containsUser r v = true ↔ handlesOf r v ≠ []) ∧
    NoEmpty (connect fails r u w).1 ∧
    NoEmpty (disconnect fails r u w).1 ∧
    NoEmpty (sendPersonalMessage fails r payload u).1 := by
  refine ⟨?_, noEmpty_connect fails r u w hr,
    noEmpty_disconnect fails r u w hr,
    noEmpty_sendPersonalMessage fails r payload u hr⟩
  intro v
  constructor
  · intro hc
    cases hl : lookupUser r v with
    | none => simp [containsUser, hl] at hc
    | some hs =>
      have hmem := lookupUser_mem r v hs hl
      have hne := hr (v, hs) hmem
      simp [handlesOf, hl, hne]
  · intro hh
    cases hl : lookupUser r v with
    | none => simp [handlesOf, hl] at hh
    | some hs => simp [containsUser, hl]

/-- Witness for C3 on a concrete well-formed registry. -/
theorem registry_invariant_preserved_witness :
    (∀ v, containsUser [(1, [4]), (2, [5, 6])] v = true
        ↔ handlesOf [(1, [4]), (2, [5, 6])] v ≠ []) ∧
    NoEmpty (connect (fun _ => false) [(1, [4]), (2, [5, 6])] 1 4).1 ∧
    NoEmpty (disconnect (fun _ => false) [(1, [4]), (2, [5, 6])] 1 4).1 ∧
    NoEmpty (sendPersonalMessage (fun _ => false) [(1, [4]), (2, [5, 6])]
      { ptype := "new_message",
        message := createMessage 1 1 2 "hi" } 1).1 :=
  registry_invariant_preserved (fun _ => false) [(1, [4]), (2, [5, 6])] 1 4
    { ptype := "new_message", message := createMessage 1 1 2 "hi" }
    (by decide)

/-- C4: registering a user's first handle produces exactly one `online`
status broadcast, attempted to every handle then in the registry —
including the newly added handle — while registering an additional handle
for an already-online user produces zero broadcasts. -/
theorem connect_first_handle_broadcasts_online (fails : Handle → Bool)
    (r : Registry) (u : UserId) (w : Handle) :
    (handlesOf r u = [] →
      (connect fails r u w).2.length = 1 ∧
      ∀ ev ∈ (connect fails r u w).2,
        ev.userId = u ∧ ev.status = "online" ∧
        ev.attempts.map (fun a => (a.targetUser, a.targetHandle))
          = broadcastTargets (connect fails r u w).1 ∧
        (u, w) ∈ broadcastTargets (connect fails r u w).1) ∧
    (handlesOf r u ≠ [] → (connect fails r u w).2 = []) := by
  constructor
  · intro h0
    rw [connect_events, if_pos h0]
    refine ⟨rfl, ?_⟩
    intro ev hev
    simp only [List.mem_singleton] at hev
    subst hev
    refine ⟨rfl, rfl, attempts_map_eq_targets fails _ u "online", ?_⟩
    exact mem_broadcastTargets_of_lookup _ u (handlesOf r u ++ [w])
      (lookupUser_connect_self fails r u w) w (by simp)
  · intro h1
    rw [connect_events, if_neg h1]

/-- Witness for C4: a first connect broadcasts once, a second connect for
the same user broadcasts nothing. -/
theorem connect_first_handle_broadcasts_online_witness :
    (connect (fun _ => false) [] 1 5).2.length = 1 ∧
    (connect (fun _ => false) [(1, [5])] 1 6).2 = [] :=
  ⟨((connect_first_handle_broadcasts_online (fun _ => false) [] 1 5).1
      (by decide)).1,
   (connect_first_handle_broadcasts_online (fun _ => false) [(1, [5])] 1 6).2
      (by decide)⟩

/-- C5: deregistering a user's last remaining handle schedules exactly one
`offline` status broadcast and removes the user's registry entry;
deregistering a handle while at least one other handle remains produces no
broadcast. -/
theorem disconnect_last_handle_broadcasts_offline (fails : Handle → Bool)
    (r : Registry) (u : UserId) (w : Handle) (hk : UKeys r) :
    (handlesOf r u = [w] →
      (disconnect fails r u w).2.length = 1 ∧
      (∀ ev ∈ (disconnect fails r u w).2,
        ev.userId = u ∧ ev.status = "offline") ∧
      containsUser (disconnect fails r u w).1 u = false) ∧
    (discStep (handlesOf r u) w ≠ [] → (disconnect fails r u w).2 = []) := by
  constructor
  · intro h1
    have hl : lookupUser r u = some [w] :=
      (handlesOf_eq_iff_lookup r u [w] (by simp)).mp h1
    have hdc : disconnect fails r u w
        = (delUser r u,
           [broadcastUserStatus fails (delUser r u) u "offline"]) := by
      simp [disconnect, hl, discStep, removeFirst]
    rw [hdc]
    refine ⟨rfl, ?_, ?_⟩
    · intro ev hev
      simp only [List.mem_singleton] at hev
      subst hev
      exact ⟨rfl, rfl⟩
    · simp [containsUser, lookupUser_delUser_self r u hk]
  · intro h2
    rw [disconnect_events]
    simp [h2]

/-- Witness for C5: removing the only handle broadcasts one offline event
and drops the entry; removing one of two handles broadcasts nothing. -/
theorem disconnect_last_handle_broadcasts_offline_witness :
    ((disconnect (fun _ => false) [(1, [5])] 1 5).2.length = 1 ∧
     containsUser (disconnect (fun _ => false) [(1, [5])] 1 5).1 1 = false) ∧
    (disconnect (fun _ => false) [(1, [5, 6])] 1 5).2 = [] := by
  have h1 := (disconnect_last_handle_broadcasts_offline (fun _ => false)
    [(1, [5])] 1 5 (by decide)).1 (by decide)
  have h2 := (disconnect_last_handle_broadcasts_offline (fun _ => false)
    [(1, [5, 6])] 1 5 (by decide)).2 (by decide)
  exact ⟨⟨h1.1, h1.2.2⟩, h2⟩

/-- C1 counterexample: recipient 9 has one registered handle and every
send fails, yet `send_message` still updates the persisted status to
`delivered` — the claim says the status should remain `sent` (queued). -/
theorem routeMessage_all_sends_fail_cex :
    handlesOf [(9, [3])] 9 ≠ [] ∧
    (∀ h ∈ handlesOf [(9, [3])] 9, (fun _ : Handle => true) h = true) ∧
    (routeMessage (fun _ => true) [(9, [3])]
      (createMessage 1 1 2 "hi") 9).stored = MessageStatus.delivered ∧
    MessageStatus.delivered ≠ MessageStatus.sent := by decide

/-- C1 (amended): routing to a recipient with at least one registered
handle always updates the persisted status to `delivered`, whether or not
any individual send succeeds; each handle whose send fails is removed from
the registry (the surviving handles are exactly those whose send
succeeded). -/
theorem routeMessage_online_always_delivered (fails : Handle → Bool)
    (r : Registry) (msg : Message) (recv : UserId) (hk : UKeys r)
    (h : handlesOf r recv ≠ []) :
    (routeMessage fails r msg recv).stored = MessageStatus.delivered ∧
    handlesOf (routeMessage fails r msg recv).reg recv
      = (handlesOf r recv).filter (fun h' => !fails h') ∧
    (∀ h' ∈ handlesOf r recv, fails h' = true →
      h' ∉ handlesOf (routeMessage fails r msg recv).reg recv) := by
  have hon : isUserOnline r recv = true := (isUserOnline_iff r recv).mpr h
  have hreg : (routeMessage fails r msg recv).reg
      = (sendPersonalMessage fails r
          { ptype := "new_message", message := msg } recv).1 := by
    simp [routeMessage, hon]
  have hst : (routeMessage fails r msg recv).stored
      = MessageStatus.delivered := by
    simp [routeMessage, hon]
  have hfil := handlesOf_sendPersonalMessage_self fails r
    { ptype := "new_message", message := msg } recv hk
  refine ⟨hst, by rw [hreg, hfil], ?_⟩
  intro h' _ hf
  rw [hreg, hfil]
  intro hcontra
  have hmf := List.of_mem_filter hcontra
  simp [hf] at hmf

/-- Witness for the amended C1: handle 3 fails, handle 4 succeeds; the
message is marked delivered and the surviving handles are the non-failing
ones. -/
theorem routeMessage_online_always_delivered_witness :
    (routeMessage (fun h => h == 3) [(9, [3, 4])]
      (createMessage 1 1 2 "hi") 9).stored = MessageStatus.delivered ∧
    handlesOf (routeMessage (fun h => h == 3) [(9, [3, 4])]
      (createMessage 1 1 2 "hi") 9).reg 9
      = (handlesOf [(9, [3, 4])] 9).filter (fun h' => !(h' == 3)) :=
  ⟨(routeMessage_online_always_delivered (fun h => h == 3) [(9, [3, 4])]
      (createMessage 1 1 2 "hi") 9 (by decide) (by decide)).1,
   (routeMessage_online_always_delivered (fun h => h == 3) [(9, [3, 4])]
      (createMessage 1 1 2 "hi") 9 (by decide) (by decide)).2.1⟩

/-- C6 counterexample: with the same websocket registered twice
(`[(1, [7, 7])]`, reachable by calling `connect` twice with one socket),
disconnecting it twice is observably different from disconnecting it once:
the second call empties the entry and broadcasts an offline event. -/
theorem disconnect_twice_cex :
    ¬ ((disconnect (fun _ => false)
          (disconnect (fun _ => false) [(1, [7, 7])] 1 7).1 1 7).1
        = (disconnect (fun _ => false) [(1, [7, 7])] 1 7).1 ∧
       (disconnect (fun _ => false)
          (disconnect (fun _ => false) [(1, [7, 7])] 1 7).1 1 7).2 = []) := by
  decide

/-- C6 (amended): `disconnect` is idempotent on every dict-representable
registry state in which the handle occurs at most once in the user's
handle list: the second call leaves the registry unchanged and produces no
broadcast. -/
theorem disconnect_idempotent_of_count_le_one (fails : Handle → Bool)
    (r : Registry) (u : UserId) (w : Handle) (hk : UKeys r)
    (hcount : (handlesOf r u).count w ≤ 1) :
    (disconnect fails (disconnect fails r u w).1 u w).1
      = (disconnect fails r u w).1 ∧
    (disconnect fails (disconnect fails r u w).1 u w).2 = [] := by
  cases hl : lookupUser r u with
  | none =>
    have h1 : disconnect fails r u w = (r, []) := by simp [disconnect, hl]
    simp [h1]
  | some hs =>
    have hh : handlesOf r u = hs := by simp [handlesOf, hl]
    by_cases hd : discStep hs w = []
    · have h1 : disconnect fails r u w
          = (delUser r u,
             [broadcastUserStatus fails (delUser r u) u "offline"]) := by
        simp [disconnect, hl, hd]
      have h2 : lookupUser (delUser r u) u = none :=
        lookupUser_delUser_self r u hk
      rw [h1]
      dsimp only
      simp [disconnect, h2]
    · have h1 : disconnect fails r u w = (setUser r u (discStep hs w), []) := by
        simp [disconnect, hl, hd, List.isEmpty_iff.ne.mpr hd]
      have h2 : lookupUser (setUser r u (discStep hs w)) u
          = some (discStep hs w) := lookupUser_setUser_self r u _
      have hw : w ∉ discStep hs w :=
        not_mem_discStep_of_count_le_one hs w (hh ▸ hcount)
      have h3 : discStep (discStep hs w) w = discStep hs w := if_neg hw
      have h4 : disconnect fails (setUser r u (discStep hs w)) u w
          = (setUser (setUser r u (discStep hs w)) u (discStep hs w), []) := by
        simp [disconnect, h2, h3, hd, List.isEmpty_iff.ne.mpr hd]
      rw [h1]
      dsimp only
      rw [h4]
      dsimp only
      exact ⟨setUser_setUser r u _ _, rfl⟩

/-- Witness for the amended C6 at a concrete state. -/
theorem disconnect_idempotent_of_count_le_one_witness :
    (disconnect (fun _ => false)
        (disconnect (fun _ => false) [(1, [7, 8])] 1 7).1 1 7).1
      = (disconnect (fun _ => false) [(1, [7, 8])] 1 7).1 ∧
    (disconnect (fun _ => false)
        (disconnect (fun _ => false) [(1, [7, 8])] 1 7).1 1 7).2 = [] :=
  disconnect_idempotent_of_count_le_one (fun _ => false) [(1, [7, 8])] 1 7
    (by decide) (by decide)

/-- C8 counterexample: when user 1 connects, the `online` presence
broadcast's send to user 2's handle 5 fails, yet handle 5 stays in the
registry — `broadcast_user_status` only logs send failures; it neither
reports the failed handle nor triggers its deregistration. -/
theorem broadcast_failed_handle_not_removed_cex :
    (∀ ev ∈ (connect (fun h => h == 5) [(2, [5])] 1 9).2,
       ∃ a ∈ ev.attempts, a.targetHandle = 5 ∧ a.ok = false) ∧
    (connect (fun h => h == 5) [(2, [5])] 1 9).2.length = 1 ∧
    handlesOf (connect (fun h => h == 5) [(2, [5])] 1 9).1 2 = [5] := by
  decide

/-- C8 (amended): during a presence broadcast each registered handle is
attempted independently — the attempted targets are all registered handles
and do not depend on which sends fail, and a connect whose broadcast had
failures leaves every other user's handles untouched; failed handles are
removed only by `send_personal_message`, which deregisters each handle
whose send fails. -/
theorem broadcast_attempts_all_spm_cleans (fails fails' : Handle → Bool)
    (r : Registry) (u v : UserId) (w : Handle) (st : String)
    (payload : NewMessagePush) (hk : UKeys r) (hvu : v ≠ u) :
    (broadcastUserStatus fails r u st).attempts.map
        (fun a => (a.targetUser, a.targetHandle)) = broadcastTargets r ∧
    (broadcastUserStatus fails r u st).attempts.map
        (fun a => (a.targetUser, a.targetHandle))
      = (broadcastUserStatus fails' r u st).attempts.map
          (fun a => (a.targetUser, a.targetHandle)) ∧
    handlesOf (connect fails r u w).1 v = handlesOf r v ∧
    (∀ h' ∈ handlesOf r u, fails h' = true →
      h' ∉ handlesOf (sendPersonalMessage fails r payload u).1 u) := by
  refine ⟨attempts_map_eq_targets fails r u st, ?_, ?_, ?_⟩
  · rw [attempts_map_eq_targets, attempts_map_eq_targets]
  · simp [handlesOf, lookupUser_connect_other fails r u v w hvu]
  · intro h' _ hf
    rw [handlesOf_sendPersonalMessage_self fails r payload u hk]
    intro hc
    have hmf := List.of_mem_filter hc
    simp [hf] at hmf

/-- Witness for the amended C8 at a concrete registry. -/
theorem broadcast_attempts_all_spm_cleans_witness :
    (broadcastUserStatus (fun h => h == 5) [(1, [4]), (2, [5])] 1
        "online").attempts.map (fun a => (a.targetUser, a.targetHandle))
      = broadcastTargets [(1, [4]), (2, [5])] ∧
    handlesOf (connect (fun h => h == 5) [(1, [4]), (2, [5])] 1 9).1 2
      = handlesOf [(1, [4]), (2, [5])] 2 :=
  ⟨(broadcast_attempts_all_spm_cleans (fun h => h == 5) (fun _ => false)
      [(1, [4]), (2, [5])] 1 2 9 "online"
      { ptype := "new_message", message := createMessage 1 1 2 "hi" }
      (by decide) (by decide)).1,
   (broadcast_attempts_all_spm_cleans (fun h => h == 5) (fun _ => false)
      [(1, [4]), (2, [5])] 1 2 9 "online"
      { ptype := "new_message", message := createMessage 1 1 2 "hi" }
      (by decide) (by decide)).2.2.1⟩

/-- C9: when a message is delivered live, every push carries the
`new_message` envelope whose embedded message still has status `sent` (its
creation status), and the stored-status update to `delivered` happens only
after all the pushes in the trace. -/
theorem routeMessage_pushes_sent_then_delivered (fails : Handle → Bool)
    (r : Registry) (recv : UserId) (i c : Nat) (s : UserId) (txt : String)
    (h : handlesOf r recv ≠ []) :
    (routeMessage fails r (createMessage i c s txt) recv).trace
      = ((handlesOf r recv).map (fun h' =>
          Effect.push h'
            { ptype := "new_message", message := createMessage i c s txt }
            (!fails h')))
        ++ [Effect.setStatus i MessageStatus.delivered] ∧
    (createMessage i c s txt).status = MessageStatus.sent ∧
    (∀ p ∈ (routeMessage fails r (createMessage i c s txt) recv).pushes,
      p.payload.ptype = "new_message"
        ∧ p.payload.message.status = MessageStatus.sent) := by
  have hon : isUserOnline r recv = true := (isUserOnline_iff r recv).mpr h
  cases hl : lookupUser r recv with
  | none => exact absurd (by simp [handlesOf, hl]) h
  | some hs =>
    have hh : handlesOf r recv = hs := by simp [handlesOf, hl]
    have hpush : (routeMessage fails r (createMessage i c s txt) recv).pushes
        = hs.map (fun h' =>
            ({ targetHandle := h',
               payload := { ptype := "new_message",
                            message := createMessage i c s txt },
               ok := !fails h' } : Push)) := by
      simp [routeMessage, hon, sendPersonalMessage, hl]
    refine ⟨?_, rfl, ?_⟩
    · have htr : (routeMessage fails r (createMessage i c s txt) recv).trace
          = (routeMessage fails r (createMessage i c s txt) recv).pushes.map
              (fun p => Effect.push p.targetHandle p.payload p.ok)
            ++ [Effect.setStatus (createMessage i c s txt).id
                  MessageStatus.delivered] := by
        simp [routeMessage, hon]
      rw [htr, hpush, hh, List.map_map]
      rfl
    · intro p hp
      rw [hpush] at hp
      simp only [List.mem_map] at hp
      obtain ⟨h', _, rfl⟩ := hp
      exact ⟨rfl, rfl⟩

/-- Witness for C9 with one online recipient handle. -/
theorem routeMessage_pushes_sent_then_delivered_witness :
    (routeMessage (fun _ => false) [(9, [3])]
      (createMessage 1 1 2 "hi") 9).trace
      = ((handlesOf [(9, [3])] 9).map (fun h' =>
          Effect.push h'
            { ptype := "new_message", message := createMessage 1 1 2 "hi" }
            (!(fun _ : Handle => false) h')))
        ++ [Effect.setStatus 1 MessageStatus.delivered] ∧
    (createMessage 1 1 2 "hi").status = MessageStatus.sent :=
  ⟨(routeMessage_pushes_sent_then_delivered (fun _ => false) [(9, [3])] 9
      1 1 2 "hi" (by decide)).1,
   (routeMessage_pushes_sent_then_delivered (fun _ => false) [(9, [3])] 9
      1 1 2 "hi" (by decide)).2.1⟩

end SocialApp
